import Mathlib

/-!
Verification development for the NitroML benchmark results overview module
(`results.py`).  The definitions below are a shallow embedding of the module:
Python dicts become association lists with Python's insertion-order update
semantics, exceptions become `Except String`, and the handful of library
calls the module makes (`json.loads` on scalar literals, `int(...)`,
`str.split`, `str.replace`, `re.sub` with the module's one anchored pattern,
`ast.literal_eval` on the list-of-strings hparams serialization, and the
pandas operations actually exercised) are modelled as total Lean functions
on the fragment of behavior the module exercises.
-/

/-- Dict models a Python dict as an association list in insertion order;
all dicts built here go through `dinsert`, which (like Python assignment)
replaces the value in place when the key exists and appends otherwise, so
keys stay unique. -/
abbrev Dict (K V : Type) := List (K × V)

/-- Lookup of a key, first match (keys are unique for dicts built by
`dinsert`). -/
def dlookup {K V : Type} [DecidableEq K] : Dict K V → K → Option V
  | [], _ => Option.none
  | (k2, v) :: rest, k => if k2 = k then some v else dlookup rest k

/-- Membership test for a key, modelling Python's `key in dict`. -/
def dcontains {K V : Type} [DecidableEq K] (d : Dict K V) (k : K) : Bool :=
  (dlookup d k).isSome

/-- Assignment `d[k] = v`: replace in place when the key exists (Python keeps
the key's position), append otherwise. -/
def dinsert {K V : Type} [DecidableEq K] (d : Dict K V) (k : K) (v : V) : Dict K V :=
  if dcontains d k then d.map (fun p => if p.1 = k then (k, v) else p)
  else d ++ [(k, v)]

/-- Keys of a dict in order, modelling `dict.keys()`. -/
def dkeys {K V : Type} (d : Dict K V) : List K := d.map Prod.fst

/-- Values of a dict in order, modelling `dict.values()`. -/
def dvalues {K V : Type} (d : Dict K V) : List V := d.map Prod.snd

/-- Size of a dict, modelling `len(dict)`. -/
def dsize {K V : Type} (d : Dict K V) : Nat := d.length

/-- Update `d1.update(d2)`: every entry of `d2` is assigned into `d1`,
so `d2` wins on key collisions and new keys are appended. -/
def dupdate {K V : Type} [DecidableEq K] (d1 d2 : Dict K V) : Dict K V :=
  d2.foldl (fun acc kv => dinsert acc kv.1 kv.2) d1

/-- lookupLast returns the value of the LAST entry of an association list
carrying the key, the semantics of building a Python dict from a sequence of
assignments. -/
def lookupLast {K V : Type} [DecidableEq K] : List (K × V) → K → Option V
  | [], _ => Option.none
  | (k2, v) :: rest, k =>
    match lookupLast rest k with
    | some w => some w
    | Option.none => if k2 = k then some v else Option.none

/-- Value is the tagged scalar type covering everything the module stores in
its property maps: Python ints, bools, None, strings, floats parsed from
decimal literals (represented exactly as mantissa times ten to exp10; binary
rounding of the Python float is not observed by this module), datetime
objects produced by `datetime.datetime.fromtimestamp` (represented by their
integer epoch argument), and the pandas NaN filler for missing cells. -/
inductive Value where
  | int (i : Int)
  | float (mantissa : Int) (exp10 : Int)
  | bool (b : Bool)
  | none
  | str (s : String)
  | timestamp (epoch : Int)
  | nan
  deriving DecidableEq

/-- trimChars drops leading and trailing whitespace from a character list. -/
def trimChars (cs : List Char) : List Char :=
  ((cs.dropWhile Char.isWhitespace).reverse.dropWhile Char.isWhitespace).reverse

/-- pyTrim models stripping surrounding whitespace from a string (the
behavior of `str.strip` and of the whitespace tolerance in `json.loads` and
`int`). -/
def pyTrim (s : String) : String := String.mk (trimChars s.data)

/-- lowerChar lowercases one ASCII letter (the strings this module
lowercases are ASCII). -/
def lowerChar (c : Char) : Char :=
  if 65 ≤ c.toNat ∧ c.toNat ≤ 90 then Char.ofNat (c.toNat + 32) else c

/-- charsHavePrefix tests whether the first list is a prefix of the
second. -/
def charsHavePrefix : List Char → List Char → Bool
  | [], _ => true
  | _ :: _, [] => false
  | p :: ps, c :: cs => if p = c then charsHavePrefix ps cs else false

/-- replaceAllAux replaces every occurrence of a non-empty pattern,
scanning left to right; the fuel argument bounds recursion by the input
length. -/
def replaceAllAux (pat rep : List Char) : Nat → List Char → List Char
  | 0, cs => cs
  | fuel + 1, cs =>
    match cs with
    | [] => []
    | c :: rest =>
      if charsHavePrefix pat cs then rep ++ replaceAllAux pat rep fuel (cs.drop pat.length)
      else c :: replaceAllAux pat rep fuel rest

/-- pyReplace models Python's `str.replace(pat, rep)` replacing ALL
occurrences; the empty-pattern case (where Python interleaves the
replacement) is outside the fragment used here and returns the string
unchanged. -/
def pyReplace (s pat rep : String) : String :=
  String.mk
    (if pat.data = [] then s.data
     else replaceAllAux pat.data rep.data (s.data.length + 1) s.data)

/-- strDrop1 models the Python slice `s[1:]`. -/
def strDrop1 (s : String) : String := String.mk (s.data.drop 1)

/-- natOfDigits folds a list of decimal digit characters into a Nat. -/
def natOfDigits (ds : List Char) : Nat :=
  ds.foldl (fun n c => n * 10 + (c.toNat - '0'.toNat)) 0

/-- intSign applies an optional leading minus sign. -/
def intSign (neg : Bool) (n : Nat) : Int :=
  if neg then -(n : Int) else (n : Int)

/-- parseIntPart consumes the JSON integer part: a lone `0`, or a nonzero
digit followed by digits. -/
def parseIntPart : List Char → Option (List Char × List Char)
  | [] => Option.none
  | c :: rest =>
    if c = '0' then some (['0'], rest)
    else if c.isDigit then
      some ((c :: rest).takeWhile Char.isDigit, (c :: rest).dropWhile Char.isDigit)
    else Option.none

/-- parseExpPart consumes a JSON exponent after `e`/`E`: optional sign then
digits; returns the signed exponent. -/
def parseExpPart (cs : List Char) : Option Int :=
  let (eneg, ds) :=
    match cs with
    | '+' :: rest => (false, rest)
    | '-' :: rest => (true, rest)
    | _ => (false, cs)
  if ds ≠ [] ∧ ds.all Char.isDigit then some (intSign eneg (natOfDigits ds))
  else Option.none

/-- parseJsonNumber models `json.loads` on a JSON number token: optional
minus, integer part, optional fraction, optional exponent.  A plain integer
becomes `Value.int`; a number with fraction or exponent becomes a
`Value.float` holding its exact decimal value. -/
def parseJsonNumber (cs : List Char) : Option Value :=
  let (neg, cs2) :=
    match cs with
    | '-' :: rest => (true, rest)
    | _ => (false, cs)
  match parseIntPart cs2 with
  | Option.none => Option.none
  | some (ipart, rest) =>
    match rest with
    | [] => some (Value.int (intSign neg (natOfDigits ipart)))
    | '.' :: rest2 =>
      let fdigits := rest2.takeWhile Char.isDigit
      let rest3 := rest2.dropWhile Char.isDigit
      if fdigits = [] then Option.none
      else
        match rest3 with
        | [] =>
          some (Value.float (intSign neg (natOfDigits (ipart ++ fdigits)))
            (-(fdigits.length : Int)))
        | e :: rest4 =>
          if e = 'e' ∨ e = 'E' then
            match parseExpPart rest4 with
            | some ex =>
              some (Value.float (intSign neg (natOfDigits (ipart ++ fdigits)))
                (ex - (fdigits.length : Int)))
            | Option.none => Option.none
          else Option.none
    | e :: rest2 =>
      if e = 'e' ∨ e = 'E' then
        match parseExpPart rest2 with
        | some ex => some (Value.float (intSign neg (natOfDigits ipart)) ex)
        | Option.none => Option.none
      else Option.none

/-- parseJsonString models `json.loads` on a JSON string token: double
quotes around characters containing no quote or backslash (escape sequences
are outside the fragment this module ever receives). -/
def parseJsonString (cs : List Char) : Option String :=
  match cs with
  | '"' :: rest =>
    match rest.reverse with
    | '"' :: midRev =>
      let mid := midRev.reverse
      if mid.contains '"' ∨ mid.contains '\\' then Option.none
      else some (String.mk mid)
    | _ => Option.none
  | _ => Option.none

/-- jsonLoads models Python's `json.loads` on scalar JSON values — the only
shapes `_to_pytype` is handed by this module: the literals `true`, `false`,
`null`, numbers, and simple strings, with surrounding whitespace tolerated.
Composite values parse as failure (`Option.none` models the
`json.JSONDecodeError`, a `ValueError`, that the caller catches). -/
def jsonLoads (s : String) : Option Value :=
  let t := pyTrim s
  if t = "true" then some (Value.bool true)
  else if t = "false" then some (Value.bool false)
  else if t = "null" then some Value.none
  else
    match parseJsonString t.data with
    | some str => some (Value.str str)
    | Option.none => parseJsonNumber t.data

/-- pyLower models `str.lower` on the ASCII strings this module handles. -/
def pyLower (s : String) : String := String.mk (s.data.map lowerChar)

/-- to_pytype embeds `_to_pytype`: lowercase the raw string, attempt
`json.loads`, and on a `ValueError` fall back to the original (not
lowercased) string.  It is total: every failure path returns the literal
string. -/
def to_pytype (val : String) : Value :=
  match jsonLoads (pyLower val) with
  | some v => v
  | Option.none => Value.str val

/-- pyInt models Python's `int(str)`: surrounding whitespace, an optional
sign, then decimal digits (digit-group underscores are not modelled; the
run ids this module sees are plain epoch digits or non-numeric strings). -/
def pyInt (s : String) : Option Int :=
  let t := pyTrim s
  let (neg, ds) :=
    match t.data with
    | '-' :: rest => (true, rest)
    | '+' :: rest => (false, rest)
    | other => (false, other)
  if ds ≠ [] ∧ ds.all Char.isDigit then some (intSign neg (natOfDigits ds))
  else Option.none

/-- stripRunSuffixRev matches the reversal of a string against the reversal
of the source regex `\.run_\d_of_\d$` (a dot, `run_`, one digit, `_of_`,
one digit, end of string; `\d` is modelled as an ASCII digit) and returns
the reversed remainder on a match. -/
def stripRunSuffixRev : List Char → Option (List Char)
  | d2 :: '_' :: 'f' :: 'o' :: '_' :: d1 :: '_' :: 'n' :: 'u' :: 'r' :: '.' :: rest =>
    if d1.isDigit && d2.isDigit then some rest else Option.none
  | _ => Option.none

/-- stripRunSuffix embeds `re.sub(r'\.run_\d_of_\d$', '', x)`: the pattern
is anchored at the end, so at most one (suffix) occurrence can match and is
deleted; otherwise the string is returned unchanged. -/
def stripRunSuffix (x : String) : String :=
  match stripRunSuffixRev x.data.reverse with
  | some rest => String.mk rest.reverse
  | Option.none => x

/-- pySplitAux is the worker for `pySplit`, carrying the reversed current
chunk. -/
def pySplitAux (sep : Char) : List Char → List Char → List (List Char)
  | [], acc => [acc.reverse]
  | c :: cs, acc =>
    if c = sep then acc.reverse :: pySplitAux sep cs []
    else pySplitAux sep cs (c :: acc)

/-- pySplit models Python's `str.split(sep)` for a one-character separator
with no maxsplit: the string is cut at EVERY occurrence of the separator. -/
def pySplit (s : String) (sep : Char) : List String :=
  (pySplitAux sep s.data []).map String.mk

/-- ExecPropVal models an MLMD execution property value; the module only
reads `.string_value`. -/
structure ExecPropVal where
  string_value : String
  deriving DecidableEq

/-- Execution models an MLMD execution record: identity, type name (used by
`get_executions_by_type`) and its property map. -/
structure Execution where
  id : Int
  type_name : String
  properties : Dict String ExecPropVal
  deriving DecidableEq

/-- CustomVal models an MLMD artifact custom-property value: the oneof the
module distinguishes with `val.HasField('int_value')`. -/
inductive CustomVal where
  | int_value (i : Int)
  | string_value (s : String)
  deriving DecidableEq

/-- Artifact models an MLMD artifact record: identity, type name and custom
properties. -/
structure Artifact where
  id : Int
  type_name : String
  custom_properties : Dict String CustomVal
  deriving DecidableEq

/-- Event models an MLMD event record linking an execution to an artifact. -/
structure Event where
  execution_id : Int
  artifact_id : Int
  deriving DecidableEq

/-- MetadataStore models the read-only MLMD service as the materialized
lists its four queries draw from. -/
structure MetadataStore where
  executions : List Execution
  artifacts : List Artifact
  events : List Event
  deriving DecidableEq

/-- get_executions_by_type models `store.get_executions_by_type`. -/
def get_executions_by_type (store : MetadataStore) (t : String) : List Execution :=
  store.executions.filter (fun e => e.type_name = t)

/-- get_executions_by_id models `store.get_executions_by_id`. -/
def get_executions_by_id (store : MetadataStore) (ids : List Int) : List Execution :=
  store.executions.filter (fun e => ids.contains e.id)

/-- get_artifacts_by_type models `store.get_artifacts_by_type`. -/
def get_artifacts_by_type (store : MetadataStore) (t : String) : List Artifact :=
  store.artifacts.filter (fun a => a.type_name = t)

/-- get_events_by_artifact_ids models `store.get_events_by_artifact_ids`. -/
def get_events_by_artifact_ids (store : MetadataStore) (ids : List Int) : List Event :=
  store.events.filter (fun ev => ids.contains ev.artifact_id)

/-- Constants of the source module. -/
def RUN_ID_KEY : String := "run_id"

/-- STARTED_AT is the start-time column name. -/
def STARTED_AT : String := "started_at"

/-- BENCHMARK_FULL_KEY is the untransformed benchmark-name column. -/
def BENCHMARK_FULL_KEY : String := "benchmark_fullname"

/-- BENCHMARK_KEY is the benchmark-name column. -/
def BENCHMARK_KEY : String := "benchmark"

/-- RUN_KEY is the run-index column. -/
def RUN_KEY : String := "run"

/-- NUM_RUNS_KEY is the run-count column. -/
def NUM_RUNS_KEY : String := "num_runs"

/-- _DEFAULT_COLUMNS embeds the source tuple of the same name. -/
def _DEFAULT_COLUMNS : List String :=
  [STARTED_AT, RUN_ID_KEY, BENCHMARK_KEY, RUN_KEY, NUM_RUNS_KEY]

/-- _DATAFRAME_CONTEXTUAL_COLUMNS embeds the source tuple of the same name. -/
def _DATAFRAME_CONTEXTUAL_COLUMNS : List String :=
  [STARTED_AT, RUN_ID_KEY, BENCHMARK_FULL_KEY, BENCHMARK_KEY, RUN_KEY, NUM_RUNS_KEY]

/-- _TRAINER is the trainer execution type name. -/
def _TRAINER : String := "my_orchestrator.components.trainer.component.EstimatorTrainer"

/-- _BENCHMARK_RESULT is the benchmark-result artifact type name. -/
def _BENCHMARK_RESULT : String := "NitroML.BenchmarkResult"

/-- _TRAINER_ID is the component-id property name. -/
def _TRAINER_ID : String := "component_id"

/-- _TRAINER_ID_TOKEN is the component-id token stripped by `str.replace`
(the source's trainer-id prefix constant). -/
def _TRAINER_ID_TOKEN : String := "EstimatorTrainer"

/-- _HPARAMS is the hparams property name. -/
def _HPARAMS : String := "hparams"

/-- _NAME is an artifact bookkeeping property excluded from metric names. -/
def _NAME : String := "name"

/-- _PRODUCER_COMPONENT is an artifact bookkeeping property excluded from
metric names. -/
def _PRODUCER_COMPONENT : String := "producer_component"

/-- _STATE is an artifact bookkeeping property excluded from metric names. -/
def _STATE : String := "state"

/-- _Result embeds the source's `_Result` named tuple. -/
structure _Result where
  properties : Dict String (Dict String Value)
  property_names : List String
  deriving DecidableEq

/-- merge_step is the body of the `_merge_results` loop over the second
result's items: update the existing property map on a shared key, install
the map wholesale on a new key. -/
def merge_step (props : Dict String (Dict String Value))
    (kv : String × Dict String Value) : Dict String (Dict String Value) :=
  match dlookup props kv.1 with
  | some existing => dinsert props kv.1 (dupdate existing kv.2)
  | Option.none => dinsert props kv.1 kv.2

/-- merge_results embeds `_merge_results`'s returned value: the second
result's items folded into the first result's property map, and the two
name lists concatenated. -/
def merge_results (result1 result2 : _Result) : _Result :=
  ⟨result2.properties.foldl merge_step result1.properties,
   result1.property_names ++ result2.property_names⟩

/-- merge_results_post1 is the state of the FIRST argument after
`_merge_results` returns: the source binds `properties = result1.properties`
(an alias, not a copy) and then mutates that dict in place with `update` and
key assignment, so after the call the first result's property map is the
merged map, while its immutable `property_names` field is untouched. -/
def merge_results_post1 (result1 result2 : _Result) : _Result :=
  ⟨(merge_results result1 result2).properties, result1.property_names⟩

/-- merge_results_post2 is the state of the SECOND argument after
`_merge_results` returns: the source never writes to it. -/
def merge_results_post2 (_result1 result2 : _Result) : _Result := result2

/-- squote is the single-quote character (used by the Python literal list
parser below). -/
def squote : Char := Char.ofNat 39

/-- skipSpaces drops leading whitespace. -/
def skipSpaces (cs : List Char) : List Char := cs.dropWhile Char.isWhitespace

/-- spanUntil splits a character list at the first occurrence of `q`,
failing when `q` is absent. -/
def spanUntil (q : Char) : List Char → Option (List Char × List Char)
  | [] => Option.none
  | c :: cs =>
    if c = q then some ([], cs)
    else
      match spanUntil q cs with
      | some (a, r) => some (c :: a, r)
      | Option.none => Option.none

/-- parseOneString parses one Python string literal (single or double
quoted, no escapes — the hparams serialization produced upstream uses plain
quoted `name=value` strings). -/
def parseOneString (cs : List Char) : Option (String × List Char) :=
  match cs with
  | q :: rest =>
    if q = squote ∨ q = '"' then
      match spanUntil q rest with
      | some (content, rest2) =>
        if content.contains '\\' then Option.none
        else some (String.mk content, rest2)
      | Option.none => Option.none
    else Option.none
  | [] => Option.none

/-- parseItems parses the comma-separated string literals of a Python list
literal up to the closing bracket; the fuel argument bounds recursion by the
input length. -/
def parseItems : Nat → List Char → Option (List String)
  | 0, _ => Option.none
  | fuel + 1, cs =>
    match parseOneString (skipSpaces cs) with
    | Option.none => Option.none
    | some (s, rest) =>
      match skipSpaces rest with
      | ',' :: rest2 =>
        match parseItems fuel rest2 with
        | some ss => some (s :: ss)
        | Option.none => Option.none
      | ']' :: rest2 =>
        if skipSpaces rest2 = [] then some [s] else Option.none
      | _ => Option.none

/-- literal_eval_str_list models `ast.literal_eval` on the fragment this
module receives: a Python list literal of plain quoted strings (the
`__str__` serialization of the hparams list documented in the source).
Any other input is a parse failure, which `_parse_hparams` propagates. -/
def literal_eval_str_list (s : String) : Option (List String) :=
  match skipSpaces s.data with
  | '[' :: rest =>
    match skipSpaces rest with
    | ']' :: tail => if skipSpaces tail = [] then some [] else Option.none
    | other => parseItems (other.length + 1) other
  | _ => Option.none

/-- parse_hparam_entry is the body of the `_parse_hparams` loop: Python's
`name, val = hp.split('=')` splits at EVERY `=` and the two-variable
unpacking raises `ValueError` unless the split has exactly two parts; the
value part is coerced with `_to_pytype`. -/
def parse_hparam_entry (hp : String) : Except String (String × Value) :=
  match pySplit hp '=' with
  | [name, val] => Except.ok (name, to_pytype val)
  | _ => Except.error "ValueError"

/-- parse_hparams_loop folds `parse_hparam_entry` over the deserialized
entry list, assigning into the hparams dict. -/
def parse_hparams_loop : List String → Dict String Value → Except String (Dict String Value)
  | [], hparams => Except.ok hparams
  | hp :: rest, hparams =>
    match parse_hparam_entry hp with
    | Except.error e => Except.error e
    | Except.ok (name, v) => parse_hparams_loop rest (dinsert hparams name v)

/-- parse_hparams embeds `_parse_hparams`: deserialize the serialized list
(`ast.literal_eval`; failure propagates as the ParseError the spec
documents) and fold the entries into a dict. -/
def parse_hparams (hp_prop : String) : Except String (Dict String Value) :=
  match literal_eval_str_list hp_prop with
  | Option.none => Except.error "ParseError"
  | some hp_strings => parse_hparams_loop hp_strings []

/-- startedAtValue is the shared started-at fallback of both extractors:
`datetime.datetime.fromtimestamp(int(run_id))` when the run id parses as an
integer, and the literal run id string when `int` raises `ValueError`. -/
def startedAtValue (run_id : String) : Value :=
  match pyInt run_id with
  | some n => Value.timestamp n
  | Option.none => Value.str run_id

/-- exec_entry is the body of the `_get_hparams` loop for one trainer
execution: read the run id, parse the hparams, record their names, then
augment the dict with run id, benchmark name (the component id with the
trainer token removed and the leading dot dropped) and start time, keyed by
run id plus stripped component id.  Missing properties model the
`KeyError` Python would raise. -/
def exec_entry (ex : Execution) : Except String (String × Dict String Value × List String) :=
  match dlookup ex.properties RUN_ID_KEY with
  | Option.none => Except.error "KeyError"
  | some ridProp =>
    let run_id := ridProp.string_value
    match dlookup ex.properties _HPARAMS with
    | Option.none => Except.error "KeyError"
    | some hpProp =>
      match parse_hparams hpProp.string_value with
      | Except.error e => Except.error e
      | Except.ok hparams0 =>
        let names := dkeys hparams0
        let hparams1 := dinsert hparams0 RUN_ID_KEY (Value.str run_id)
        match dlookup ex.properties _TRAINER_ID with
        | Option.none => Except.error "KeyError"
        | some tidProp =>
          let trainer_id := pyReplace tidProp.string_value _TRAINER_ID_TOKEN ""
          let result_key := run_id ++ trainer_id
          let hparams2 := dinsert hparams1 BENCHMARK_KEY (Value.str (strDrop1 trainer_id))
          let hparams3 := dinsert hparams2 STARTED_AT (startedAtValue run_id)
          Except.ok (result_key, hparams3, names)

/-- unionNames models Python set union on name lists kept duplicate-free. -/
def unionNames (a b : List String) : List String :=
  a ++ b.filter (fun x => ¬ a.contains x)

/-- insertSorted inserts a string into a sorted list. -/
def insertSorted (x : String) : List String → List String
  | [] => [x]
  | y :: ys => if x ≤ y then x :: y :: ys else y :: insertSorted x ys

/-- sortStrings models Python's `sorted` on a set of names. -/
def sortStrings (l : List String) : List String := l.foldr insertSorted []

/-- get_hparams_loop folds `exec_entry` over the trainer executions,
keying each entry and accumulating the set of hparam names. -/
def get_hparams_loop : List Execution → Dict String (Dict String Value) → List String →
    Except String (Dict String (Dict String Value) × List String)
  | [], results, names => Except.ok (results, names)
  | ex :: rest, results, names =>
    match exec_entry ex with
    | Except.error e => Except.error e
    | Except.ok (key, hp, ns) =>
      get_hparams_loop rest (dinsert results key hp) (unionNames names ns)

/-- get_hparams embeds `_get_hparams`. -/
def get_hparams (store : MetadataStore) : Except String _Result :=
  match get_hparams_loop (get_executions_by_type store _TRAINER) [] [] with
  | Except.error e => Except.error e
  | Except.ok (results, names) => Except.ok ⟨results, sortStrings names⟩

/-- artifact_evals is the first `_get_benchmark_results` loop body: convert
an artifact's custom properties, integer-typed fields passing through and
all others going through `_to_pytype` on their string value. -/
def artifact_evals (a : Artifact) : Dict String Value :=
  a.custom_properties.foldl
    (fun evals kv =>
      dinsert evals kv.1
        (match kv.2 with
         | CustomVal.int_value i => Value.int i
         | CustomVal.string_value s => to_pytype s))
    []

/-- benchmark_metrics_loop folds `artifact_evals` over the benchmark-result
artifacts, keying by artifact id and accumulating property names. -/
def benchmark_metrics_loop : List Artifact → Dict Int (Dict String Value) → List String →
    Dict Int (Dict String Value) × List String
  | [], metrics, names => (metrics, names)
  | a :: rest, metrics, names =>
    let evals := artifact_evals a
    benchmark_metrics_loop rest (dinsert metrics a.id evals) (unionNames names (dkeys evals))

/-- run_id_map_loop is the second loop of `_get_artifact_run_id_map`: for
each fetched execution, map its artifact back to the execution's run id.
Missing keys model Python's `KeyError` (the fatal store inconsistency the
spec documents). -/
def run_id_map_loop (exec_to_artifact : Dict Int Int) :
    List Execution → Dict Int String → Except String (Dict Int String)
  | [], m => Except.ok m
  | e :: rest, m =>
    match dlookup exec_to_artifact e.id with
    | Option.none => Except.error "KeyError"
    | some aid =>
      match dlookup e.properties RUN_ID_KEY with
      | Option.none => Except.error "KeyError"
      | some pv => run_id_map_loop exec_to_artifact rest (dinsert m aid pv.string_value)

/-- get_artifact_run_id_map embeds `_get_artifact_run_id_map`: batch-fetch
events for the artifact ids, build the execution-to-artifact map (later
events overwriting), batch-fetch those executions and compose the final
artifact-id-to-run-id map. -/
def get_artifact_run_id_map (store : MetadataStore) (artifact_ids : List Int) :
    Except String (Dict Int String) :=
  let events := get_events_by_artifact_ids store artifact_ids
  let exec_to_artifact :=
    events.foldl (fun m ev => dinsert m ev.execution_id ev.artifact_id) ([] : Dict Int Int)
  let executions := get_executions_by_id store (dkeys exec_to_artifact)
  run_id_map_loop exec_to_artifact executions []

/-- benchmark_entry is the second `_get_benchmark_results` loop body for one
(artifact id, evals) item: attach the run id (`KeyError` if unresolvable),
attach the start time with the same fallback as `_get_hparams`, and build
the composite key from the run id and the `benchmark` property (whose value
must be a string for Python's `+` to succeed). -/
def benchmark_entry (run_id_map : Dict Int String) (item : Int × Dict String Value) :
    Except String (String × Dict String Value) :=
  match dlookup run_id_map item.1 with
  | Option.none => Except.error "KeyError"
  | some run_id =>
    let evals1 := dinsert item.2 RUN_ID_KEY (Value.str run_id)
    let evals2 := dinsert evals1 STARTED_AT (startedAtValue run_id)
    match dlookup evals2 BENCHMARK_KEY with
    | Option.none => Except.error "KeyError"
    | some (Value.str bench) => Except.ok (run_id ++ "." ++ bench, evals2)
    | some _ => Except.error "TypeError"

/-- benchmark_entries_loop maps `benchmark_entry` over the metric items in
insertion order. -/
def benchmark_entries_loop (run_id_map : Dict Int String) :
    List (Int × Dict String Value) → Except String (List (String × Dict String Value))
  | [] => Except.ok []
  | item :: rest =>
    match benchmark_entry run_id_map item with
    | Except.error e => Except.error e
    | Except.ok p =>
      match benchmark_entries_loop run_id_map rest with
      | Except.error e => Except.error e
      | Except.ok ps => Except.ok (p :: ps)

/-- benchmark_entries is the sequence of (composite key, evals) pairs the
second `_get_benchmark_results` loop assigns, in iteration order. -/
def benchmark_entries (store : MetadataStore) :
    Except String (List (String × Dict String Value)) :=
  let pair := benchmark_metrics_loop (get_artifacts_by_type store _BENCHMARK_RESULT) [] []
  match get_artifact_run_id_map store (dkeys pair.1) with
  | Except.error e => Except.error e
  | Except.ok run_id_map => benchmark_entries_loop run_id_map pair.1

/-- excludedPropertyNames is the bookkeeping/contextual name set removed
from the metric property names. -/
def excludedPropertyNames : List String :=
  [_NAME, _PRODUCER_COMPONENT, _STATE] ++ _DEFAULT_COLUMNS

/-- get_benchmark_results embeds `_get_benchmark_results`: the keyed entries
assigned into the properties dict (later assignments to the same composite
key overwriting earlier ones), and the accumulated property names minus the
bookkeeping and contextual names, sorted. -/
def get_benchmark_results (store : MetadataStore) : Except String _Result :=
  let pair := benchmark_metrics_loop (get_artifacts_by_type store _BENCHMARK_RESULT) [] []
  match benchmark_entries store with
  | Except.error e => Except.error e
  | Except.ok entries =>
    Except.ok
      ⟨entries.foldl (fun p kv => dinsert p kv.1 kv.2) [],
       sortStrings (pair.2.filter (fun n => ¬ excludedPropertyNames.contains n))⟩

/-- DataFrame models the pandas frame as the module uses it: an ordered
column list, the names of index levels after `set_index` (empty for the
default range index), and one dict per row holding both column and index
values.  Group-key sort order of pandas `groupby` is not observed by any
property below and groups are kept in first-appearance order. -/
structure DataFrame where
  columns : List String
  index_cols : List String
  rows : List (Dict String Value)
  deriving DecidableEq

/-- pdDataFrame models `pd.DataFrame(list_of_dicts)`: columns are the union
of row keys in first-appearance order, and every row is filled to all
columns with NaN for missing keys. -/
def pdDataFrame (records : List (Dict String Value)) : DataFrame :=
  let cols := records.foldl (fun acc r => unionNames acc (dkeys r)) []
  ⟨cols, [],
   records.map (fun r => cols.map (fun c => (c, (dlookup r c).getD Value.nan)))⟩

/-- dfEmpty models `df.empty`: no rows or no columns. -/
def dfEmpty (df : DataFrame) : Bool :=
  df.rows.isEmpty || df.columns.isEmpty

/-- columnValues models column selection `df[c]` as the list of that
column's cell values. -/
def columnValues (df : DataFrame) (c : String) : List Value :=
  df.rows.map (fun r => (dlookup r c).getD Value.nan)

/-- assignColumn models `df[c] = values`: a new column is appended at the
end of the column order, an existing one is replaced in place. -/
def assignColumn (df : DataFrame) (c : String) (vals : List Value) : DataFrame :=
  ⟨if df.columns.contains c then df.columns else df.columns ++ [c],
   df.index_cols,
   (df.rows.zip vals).map (fun rv => dinsert rv.1 c rv.2)⟩

/-- stripColumn models `df[BENCHMARK_KEY].apply(lambda x: re.sub(...))`:
`re.sub` requires each cell to be a string (a non-string cell, e.g. the NaN
of a row missing the column, raises `TypeError`). -/
def stripColumn : List Value → Except String (List Value)
  | [] => Except.ok []
  | Value.str s :: rest =>
    match stripColumn rest with
    | Except.error e => Except.error e
    | Except.ok vs => Except.ok (Value.str (stripRunSuffix s) :: vs)
  | _ :: _ => Except.error "TypeError"

/-- selectColumns models `df[cols]`: `KeyError` when a requested column is
absent, otherwise the frame reindexed to exactly those columns in order
(index levels and their values are retained). -/
def selectColumns (df : DataFrame) (cols : List String) : Except String DataFrame :=
  if cols.all (fun c => df.columns.contains c) then
    Except.ok
      ⟨cols, df.index_cols,
       df.rows.map (fun r =>
         (cols ++ df.index_cols).map (fun c => (c, (dlookup r c).getD Value.nan)))⟩
  else Except.error "KeyError"

/-- setIndex models `df.set_index(cols)`: the named columns move out of the
column order and become the index levels; a missing column is a
`KeyError`. -/
def setIndex (df : DataFrame) (cols : List String) : Except String DataFrame :=
  if cols.all (fun c => df.columns.contains c) then
    Except.ok ⟨df.columns.filter (fun c => ¬ cols.contains c), cols, df.rows⟩
  else Except.error "KeyError"

/-- dropColumn models `df.drop([c], axis=1)`. -/
def dropColumn (df : DataFrame) (c : String) : DataFrame :=
  ⟨df.columns.filter (fun c2 => c2 ≠ c), df.index_cols, df.rows⟩

/-- make_dataframe embeds `_make_dataframe`: build the frame from the merged
row dicts; when it is non-empty, copy the benchmark column into the full
benchmark-name column, strip the repetition suffix from the benchmark
column, reorder to the contextual columns (dropping run/num_runs when
absent) followed by the given property names, and index by start time. -/
def make_dataframe (metrics_list : List (Dict String Value)) (columns : List String) :
    Except String DataFrame :=
  let df := pdDataFrame metrics_list
  if dfEmpty df then Except.ok df
  else if ¬ df.columns.contains BENCHMARK_KEY then Except.error "KeyError"
  else
    let df1 := assignColumn df BENCHMARK_FULL_KEY (columnValues df BENCHMARK_KEY)
    match stripColumn (columnValues df1 BENCHMARK_KEY) with
    | Except.error e => Except.error e
    | Except.ok stripped =>
      let df2 := assignColumn df1 BENCHMARK_KEY stripped
      let key_columns := _DATAFRAME_CONTEXTUAL_COLUMNS
      let key_columns :=
        if df2.columns.contains RUN_KEY then key_columns else key_columns.erase RUN_KEY
      let key_columns :=
        if df2.columns.contains NUM_RUNS_KEY then key_columns
        else key_columns.erase NUM_RUNS_KEY
      match selectColumns df2 (key_columns ++ columns) with
      | Except.error e => Except.error e
      | Except.ok df3 => setIndex df3 [STARTED_AT]

/-- Agg models one metric aggregator: its pandas column label and the
function applied to a column of group values. -/
structure Agg where
  name : String
  fn : List Value → Value

/-- listRemove models Python's `list.remove`: drop the first occurrence,
`ValueError` when absent. -/
def listRemove (l : List String) (x : String) : Except String (List String) :=
  if l.contains x then Except.ok (l.erase x) else Except.error "ValueError"

/-- groupKey extracts a row's tuple of values at the grouping columns. -/
def groupKey (gcols : List String) (r : Dict String Value) : List Value :=
  gcols.map (fun c => (dlookup r c).getD Value.nan)

/-- distinctKeys lists the distinct group keys in first-appearance order. -/
def distinctKeys (gcols : List String) : List (Dict String Value) → List (List Value)
  | [] => []
  | r :: rest =>
    let ks := distinctKeys gcols rest
    let k := groupKey gcols r
    if ks.contains k then ks else k :: ks

/-- groupbyAgg models the `df.groupby(groupby_columns).agg(aggregators)`
composition followed by flattening the two-level column labels with
`' '.join(col).strip()`: one output row per distinct group key, holding the
key values and, for every metric column and aggregator, the aggregated
value under the flattened label. -/
def groupbyAgg (df : DataFrame) (gcols : List String) (aggs : List Agg) : DataFrame :=
  let metricCols := df.columns.filter (fun c => ¬ gcols.contains c)
  let flatCols := metricCols.flatMap (fun c => aggs.map (fun f => pyTrim (c ++ " " ++ f.name)))
  let keys := (distinctKeys gcols df.rows.reverse).reverse
  let rows := keys.map (fun k =>
    let grp := df.rows.filter (fun r => groupKey gcols r = k)
    (gcols.zip k) ++
      metricCols.flatMap (fun c =>
        aggs.map (fun f =>
          (pyTrim (c ++ " " ++ f.name), f.fn (grp.map (fun r => (dlookup r c).getD Value.nan))))))
  ⟨gcols ++ flatCols, [], rows⟩

/-- aggregate_results embeds `_aggregate_results`: drop the run column when
present, remove run, full benchmark name and (when absent from the data)
num_runs from the grouping columns (`list.remove`, `ValueError` on a missing
entry), group by the remaining columns — a `KeyError` when one is neither a
column nor an index level, which is exactly what happens on the empty frame
— aggregate, flatten the labels, then restore start time as the index. -/
def aggregate_results (df : DataFrame) (metric_aggregators : List Agg)
    (groupby_columns : List String) : Except String DataFrame :=
  let df1 := if df.columns.contains RUN_KEY then dropColumn df RUN_KEY else df
  match listRemove groupby_columns RUN_KEY with
  | Except.error e => Except.error e
  | Except.ok g1 =>
    match listRemove g1 BENCHMARK_FULL_KEY with
    | Except.error e => Except.error e
    | Except.ok g2 =>
      match
        (if df1.columns.contains NUM_RUNS_KEY then Except.ok g2
         else listRemove g2 NUM_RUNS_KEY) with
      | Except.error e => Except.error e
      | Except.ok gcols =>
        if ¬ gcols.all (fun c => df1.columns.contains c || df1.index_cols.contains c) then
          Except.error "KeyError"
        else
          let flatRows :=
            df1.rows.map (fun r =>
              r.map (fun kv => kv))
          let df2 := ⟨df1.columns ++ df1.index_cols, [], flatRows⟩
          let df3 := groupbyAgg df2 gcols metric_aggregators
          setIndex df3 [STARTED_AT]

/-- overview_results_list is the comprehension in `overview` filtering
merged entries to those with more properties than there are default
contextual columns. -/
def overview_results_list (result : _Result) : List (Dict String Value) :=
  (dvalues result.properties).filter (fun r => _DEFAULT_COLUMNS.length < dsize r)

/-- overview embeds the public `overview(store, metric_aggregators)`:
extract hparams and benchmark results, merge them, filter under-populated
entries, build the frame, and aggregate when a non-empty aggregator list is
supplied (`if metric_aggregators:` is falsy for both `None` and `[]`). -/
def overview (store : MetadataStore) (metric_aggregators : Option (List Agg)) :
    Except String DataFrame :=
  match get_hparams store with
  | Except.error e => Except.error e
  | Except.ok hparams_result =>
    match get_benchmark_results store with
    | Except.error e => Except.error e
    | Except.ok metrics_result =>
      let result := merge_results hparams_result metrics_result
      let results_list := overview_results_list result
      match make_dataframe results_list result.property_names with
      | Except.error e => Except.error e
      | Except.ok df =>
        match metric_aggregators with
        | some aggs =>
          if aggs.isEmpty then Except.ok df
          else
            aggregate_results df aggs
              (_DATAFRAME_CONTEXTUAL_COLUMNS ++ hparams_result.property_names)
        | Option.none => Except.ok df

/-- storeNoQualifying is a store whose single trainer execution carries one
hparam, so its merged entry has four properties (one hparam plus the three
contextual ones) and is filtered out: no qualifying entries exist. -/
def storeNoQualifying : MetadataStore :=
  ⟨[⟨1, _TRAINER,
     [(RUN_ID_KEY, ⟨"123"⟩), (_HPARAMS, ⟨"['a=1']"⟩),
      (_TRAINER_ID, ⟨"EstimatorTrainer.taskA"⟩)]⟩], [], []⟩

/-- aggMean is a sample aggregator (its function is irrelevant to the empty
case, which fails before any aggregation happens). -/
def aggMean : Agg := ⟨"mean", fun _ => Value.nan⟩

/-- storeCollision is a store with two benchmark-result artifacts that
resolve to the same run id and benchmark name, hence the same composite
key. -/
def storeCollision : MetadataStore :=
  ⟨[⟨10, "t", [(RUN_ID_KEY, ⟨"7"⟩)]⟩, ⟨11, "t", [(RUN_ID_KEY, ⟨"7"⟩)]⟩],
   [⟨1, _BENCHMARK_RESULT,
     [("benchmark", CustomVal.string_value "taskA"), ("accuracy", CustomVal.int_value 1)]⟩,
    ⟨2, _BENCHMARK_RESULT,
     [("benchmark", CustomVal.string_value "taskA"), ("accuracy", CustomVal.int_value 2)]⟩],
   [⟨10, 1⟩, ⟨11, 2⟩]⟩

/-- collisionEntries is the keyed entry sequence `storeCollision` produces:
both artifacts map to the composite key `7.taskA`. -/
def collisionEntries : List (String × Dict String Value) :=
  [("7.taskA",
    [("benchmark", Value.str "taskA"), ("accuracy", Value.int 1),
     ("run_id", Value.str "7"), ("started_at", Value.timestamp 7)]),
   ("7.taskA",
    [("benchmark", Value.str "taskA"), ("accuracy", Value.int 2),
     ("run_id", Value.str "7"), ("started_at", Value.timestamp 7)])]

/-- collisionResult is the extractor output on `storeCollision`: one entry
for the shared key, holding the later artifact's values. -/
def collisionResult : _Result :=
  ⟨[("7.taskA",
    [("benchmark", Value.str "taskA"), ("accuracy", Value.int 2),
     ("run_id", Value.str "7"), ("started_at", Value.timestamp 7)])],
   ["accuracy"]⟩

/-- storeTwoHparams is a store whose single trainer execution carries two
genuine hparams, so its merged entry has exactly five properties. -/
def storeTwoHparams : MetadataStore :=
  ⟨[⟨1, _TRAINER,
     [(RUN_ID_KEY, ⟨"123"⟩), (_HPARAMS, ⟨"['a=1', 'b=2']"⟩),
      (_TRAINER_ID, ⟨"EstimatorTrainer.taskA"⟩)]⟩], [], []⟩

/-- mergedTwoHparams is the merged result `overview` builds on
`storeTwoHparams` (the fallback never fires: both extractors succeed). -/
def mergedTwoHparams : _Result :=
  match get_hparams storeTwoHparams, get_benchmark_results storeTwoHparams with
  | Except.ok h, Except.ok m => merge_results h m
  | _, _ => ⟨[], []⟩

/-- sixKeyEntry is a property map with six entries, one more than the
default contextual column count. -/
def sixKeyEntry : Dict String Value :=
  [("c1", Value.int 1), ("c2", Value.int 2), ("c3", Value.int 3),
   ("c4", Value.int 4), ("c5", Value.int 5), ("c6", Value.int 6)]

/-- execNonNumericRunId is a trainer execution whose run id is the
non-numeric string `abc`. -/
def execNonNumericRunId : Execution :=
  ⟨1, _TRAINER,
   [(RUN_ID_KEY, ⟨"abc"⟩), (_HPARAMS, ⟨"['a=1']"⟩),
    (_TRAINER_ID, ⟨"EstimatorTrainer.taskA"⟩)]⟩

theorem dlookup_append {K V : Type} [DecidableEq K] (d e : Dict K V) (k : K) :
    dlookup (d ++ e) k =
      match dlookup d k with
      | some v => some v
      | Option.none => dlookup e k := by
  induction d with
  | nil => simp [dlookup]
  | cons p rest ih =>
    obtain ⟨k2, v⟩ := p
    by_cases h : k2 = k
    · simp [dlookup, h]
    · simp [dlookup, h, ih]

theorem dlookup_map_replace {K V : Type} [DecidableEq K] (d : Dict K V) (k : K) (v : V) :
    dlookup (d.map (fun p => if p.1 = k then (k, v) else p)) k =
      if dcontains d k then some v else Option.none := by
  induction d with
  | nil => simp [dlookup, dcontains]
  | cons p rest ih =>
    obtain ⟨k2, v2⟩ := p
    by_cases h : k2 = k
    · subst h
      rw [List.map_cons]
      have hh : (if (k2, v2).1 = k2 then (k2, v) else (k2, v2)) = (k2, v) := by simp
      rw [hh]
      simp [dlookup, dcontains]
    · rw [List.map_cons]
      have hh : (if (k2, v2).1 = k then (k, v) else (k2, v2)) = (k2, v2) := by simp [h]
      rw [hh]
      simp [dlookup, dcontains, h, ih]

theorem dlookup_map_replace_ne {K V : Type} [DecidableEq K] (d : Dict K V) (k k2 : K) (v : V)
    (h : k2 ≠ k) :
    dlookup (d.map (fun p => if p.1 = k then (k, v) else p)) k2 = dlookup d k2 := by
  induction d with
  | nil => simp [dlookup]
  | cons p rest ih =>
    obtain ⟨k3, v3⟩ := p
    by_cases h3 : k3 = k
    · subst h3
      rw [List.map_cons]
      have hh : (if (k3, v3).1 = k3 then (k3, v) else (k3, v3)) = (k3, v) := by simp
      rw [hh]
      have hne : k3 ≠ k2 := fun he => h (he ▸ rfl)
      simp [dlookup, hne, ih]
    · rw [List.map_cons]
      have hh : (if (k3, v3).1 = k then (k, v) else (k3, v3)) = (k3, v3) := by simp [h3]
      rw [hh]
      simp [dlookup, ih]

theorem dlookup_dinsert_self {K V : Type} [DecidableEq K] (d : Dict K V) (k : K) (v : V) :
    dlookup (dinsert d k v) k = some v := by
  unfold dinsert
  by_cases h : dcontains d k
  · simp [h, dlookup_map_replace]
  · have h2 : dlookup d k = Option.none := by
      cases hl : dlookup d k with
      | none => rfl
      | some w => simp [dcontains, hl] at h
    simp [h, dlookup_append, h2, dlookup]

theorem dlookup_dinsert_ne {K V : Type} [DecidableEq K] (d : Dict K V) (k k2 : K) (v : V)
    (h : k2 ≠ k) : dlookup (dinsert d k v) k2 = dlookup d k2 := by
  unfold dinsert
  by_cases hc : dcontains d k
  · simp [hc, dlookup_map_replace_ne d k k2 v h]
  · have : k ≠ k2 := fun he => h (he ▸ rfl)
    simp [hc, dlookup_append, dlookup, this]
    cases dlookup d k2 <;> simp

theorem dcontains_dinsert_self {K V : Type} [DecidableEq K] (d : Dict K V) (k : K) (v : V) :
    dcontains (dinsert d k v) k = true := by
  simp [dcontains, dlookup_dinsert_self]

theorem dcontains_dinsert_of {K V : Type} [DecidableEq K] (d : Dict K V) (k k2 : K) (v : V)
    (h : dcontains d k2 = true) : dcontains (dinsert d k v) k2 = true := by
  by_cases hk : k2 = k
  · subst hk; exact dcontains_dinsert_self d k2 v
  · simpa [dcontains, dlookup_dinsert_ne d k k2 v hk] using h

theorem dkeys_dinsert_of_contains {K V : Type} [DecidableEq K] (d : Dict K V) (k : K) (v : V)
    (h : dcontains d k = true) : dkeys (dinsert d k v) = dkeys d := by
  unfold dinsert
  rw [if_pos h]
  unfold dkeys
  rw [List.map_map]
  apply List.map_congr_left
  intro p _
  by_cases hp : p.1 = k
  · simp only [Function.comp_apply, if_pos hp]
    exact hp.symm
  · simp only [Function.comp_apply, if_neg hp]

theorem dkeys_dinsert_of_not {K V : Type} [DecidableEq K] (d : Dict K V) (k : K) (v : V)
    (h : dcontains d k = false) : dkeys (dinsert d k v) = dkeys d ++ [k] := by
  unfold dinsert
  simp [h, dkeys]

theorem dcontains_iff_mem_dkeys {K V : Type} [DecidableEq K] (d : Dict K V) (k : K) :
    dcontains d k = true ↔ k ∈ dkeys d := by
  induction d with
  | nil => simp [dcontains, dlookup, dkeys]
  | cons p rest ih =>
    obtain ⟨k2, v⟩ := p
    by_cases h : k2 = k
    · subst h; simp [dcontains, dlookup, dkeys]
    · simp [dcontains, dlookup, dkeys, h, Ne.symm h] at ih ⊢
      exact ih

theorem nodup_dinsert {K V : Type} [DecidableEq K] (d : Dict K V) (k : K) (v : V)
    (h : (dkeys d).Nodup) : (dkeys (dinsert d k v)).Nodup := by
  by_cases hc : dcontains d k
  · rwa [dkeys_dinsert_of_contains d k v hc]
  · rw [dkeys_dinsert_of_not d k v (by simpa using hc)]
    refine List.Nodup.append h (List.nodup_singleton k) ?_
    intro x hx hk
    rcases List.mem_singleton.mp hk with rfl
    exact hc ((dcontains_iff_mem_dkeys d x).mpr hx)

theorem dlookup_foldl_dinsert {K V : Type} [DecidableEq K] (l : List (K × V)) (acc : Dict K V)
    (k : K) :
    dlookup (l.foldl (fun a kv => dinsert a kv.1 kv.2) acc) k =
      match lookupLast l k with
      | some v => some v
      | Option.none => dlookup acc k := by
  induction l generalizing acc with
  | nil => simp [lookupLast]
  | cons p rest ih =>
    obtain ⟨k2, v2⟩ := p
    rw [List.foldl_cons, ih]
    cases hl : lookupLast rest k with
    | some w => simp [lookupLast, hl]
    | none =>
      by_cases h : k2 = k
      · subst h
        simp [lookupLast, hl, dlookup_dinsert_self]
      · simp [lookupLast, hl, h, dlookup_dinsert_ne acc k2 k v2 (fun he => h he.symm)]

theorem nodup_foldl_dinsert {K V : Type} [DecidableEq K] (l : List (K × V)) (acc : Dict K V)
    (h : (dkeys acc).Nodup) :
    (dkeys (l.foldl (fun a kv => dinsert a kv.1 kv.2) acc)).Nodup := by
  induction l generalizing acc with
  | nil => exact h
  | cons p rest ih => exact ih (dinsert acc p.1 p.2) (nodup_dinsert acc p.1 p.2 h)

theorem dlookup_eq_none_of_not_mem {K V : Type} [DecidableEq K] (d : Dict K V) (k : K)
    (h : k ∉ dkeys d) : dlookup d k = Option.none := by
  induction d with
  | nil => rfl
  | cons p rest ih =>
    obtain ⟨k2, v⟩ := p
    have hck : dkeys ((k2, v) :: rest) = k2 :: dkeys rest := rfl
    rw [hck, List.mem_cons] at h
    push_neg at h
    have h1 : ¬ k2 = k := fun he => h.1 he.symm
    simp [dlookup, h1, ih h.2]

theorem lookupLast_eq_none_of_not_mem {K V : Type} [DecidableEq K] (l : List (K × V)) (k : K)
    (h : k ∉ dkeys l) : lookupLast l k = Option.none := by
  induction l with
  | nil => rfl
  | cons p rest ih =>
    obtain ⟨k2, v⟩ := p
    have hck : dkeys ((k2, v) :: rest) = k2 :: dkeys rest := rfl
    rw [hck, List.mem_cons] at h
    push_neg at h
    have h1 : ¬ k2 = k := fun he => h.1 he.symm
    simp [lookupLast, h1, ih h.2]

theorem lookupLast_eq_dlookup_of_nodup {K V : Type} [DecidableEq K] (l : List (K × V)) (k : K)
    (h : (dkeys l).Nodup) : lookupLast l k = dlookup l k := by
  induction l with
  | nil => rfl
  | cons p rest ih =>
    obtain ⟨k2, v⟩ := p
    have hck : dkeys ((k2, v) :: rest) = k2 :: dkeys rest := rfl
    rw [hck, List.nodup_cons] at h
    by_cases hk : k2 = k
    · subst hk
      have hn : lookupLast rest k2 = Option.none :=
        lookupLast_eq_none_of_not_mem rest k2 h.1
      simp [lookupLast, dlookup, hn]
    · simp [lookupLast, dlookup, hk, ih h.2]
      cases dlookup rest k <;> simp

theorem dlookup_dupdate {K V : Type} [DecidableEq K] (d1 d2 : Dict K V) (k : K)
    (h : (dkeys d2).Nodup) :
    dlookup (dupdate d1 d2) k =
      match dlookup d2 k with
      | some v => some v
      | Option.none => dlookup d1 k := by
  unfold dupdate
  rw [dlookup_foldl_dinsert, lookupLast_eq_dlookup_of_nodup d2 k h]

theorem dcontains_foldl_merge_left (l : Dict String (Dict String Value))
    (acc : Dict String (Dict String Value)) (k : String) (h : dcontains acc k = true) :
    dcontains (l.foldl merge_step acc) k = true := by
  induction l generalizing acc with
  | nil => exact h
  | cons p rest ih =>
    rw [List.foldl_cons]
    apply ih
    unfold merge_step
    cases dlookup acc p.1 with
    | some existing => exact dcontains_dinsert_of acc p.1 k (dupdate existing p.2) h
    | none => exact dcontains_dinsert_of acc p.1 k p.2 h

theorem dcontains_foldl_merge_right (l : Dict String (Dict String Value))
    (acc : Dict String (Dict String Value)) (k : String) (h : dcontains l k = true) :
    dcontains (l.foldl merge_step acc) k = true := by
  induction l generalizing acc with
  | nil => simp [dcontains, dlookup] at h
  | cons p rest ih =>
    obtain ⟨k2, ps⟩ := p
    rw [List.foldl_cons]
    by_cases hk : k2 = k
    · subst hk
      apply dcontains_foldl_merge_left
      unfold merge_step
      cases dlookup acc k2 with
      | some existing => exact dcontains_dinsert_self acc k2 (dupdate existing ps)
      | none => exact dcontains_dinsert_self acc k2 ps
    · have h2 : dcontains rest k = true := by
        simpa [dcontains, dlookup, hk] using h
      exact ih (merge_step acc (k2, ps)) h2

theorem pySplitAux_sep_notin_left (sep : Char) (xs ys acc : List Char) (h : sep ∉ xs) :
    pySplitAux sep (xs ++ sep :: ys) acc = (acc.reverse ++ xs) :: pySplitAux sep ys [] := by
  induction xs generalizing acc with
  | nil => simp [pySplitAux]
  | cons x xs ih =>
    rw [List.mem_cons] at h
    push_neg at h
    have hx : ¬ x = sep := fun he => h.1 he.symm
    rw [List.cons_append]
    show (if x = sep then acc.reverse :: pySplitAux sep (xs ++ sep :: ys) []
      else pySplitAux sep (xs ++ sep :: ys) (x :: acc)) = _
    rw [if_neg hx, ih (x :: acc) h.2]
    simp

theorem pySplitAux_no_sep (sep : Char) (ys acc : List Char) (h : sep ∉ ys) :
    pySplitAux sep ys acc = [acc.reverse ++ ys] := by
  induction ys generalizing acc with
  | nil => simp [pySplitAux]
  | cons y ys ih =>
    rw [List.mem_cons] at h
    push_neg at h
    have hy : ¬ y = sep := fun he => h.1 he.symm
    show (if y = sep then acc.reverse :: pySplitAux sep ys []
      else pySplitAux sep ys (y :: acc)) = _
    rw [if_neg hy, ih (y :: acc) h.2]
    simp

theorem pySplit_two_parts (n v : String) (hn : '=' ∉ n.data) (hv : '=' ∉ v.data) :
    pySplit (n ++ "=" ++ v) '=' = [n, v] := by
  unfold pySplit
  have hdata : (n ++ "=" ++ v).data = n.data ++ '=' :: v.data := by
    show (n.data ++ ['=']) ++ v.data = n.data ++ '=' :: v.data
    rw [List.append_assoc]
    rfl
  rw [hdata, pySplitAux_sep_notin_left '=' n.data v.data [] hn,
    pySplitAux_no_sep '=' v.data [] hv]
  simp

theorem pySplitAux_length (sep : Char) (cs acc : List Char) :
    (pySplitAux sep cs acc).length = cs.count sep + 1 := by
  induction cs generalizing acc with
  | nil => simp [pySplitAux]
  | cons c cs ih =>
    by_cases h : c = sep
    · subst h
      show (if c = c then acc.reverse :: pySplitAux c cs [] else _).length = _
      rw [if_pos rfl]
      simp [ih, List.count_cons]
    · show (if c = sep then _ else pySplitAux sep cs (c :: acc)).length = _
      rw [if_neg h]
      simp [ih, List.count_cons, h]

theorem pySplit_length (hp : String) :
    (pySplit hp '=').length = hp.data.count '=' + 1 := by
  unfold pySplit
  simp [pySplitAux_length]

theorem stripRunSuffix_append (s : String) (d1 d2 : Char) (h1 : d1.isDigit = true)
    (h2 : d2.isDigit = true) :
    stripRunSuffix (s ++ String.mk ['.', 'r', 'u', 'n', '_', d1, '_', 'o', 'f', '_', d2]) = s := by
  unfold stripRunSuffix
  have hdata : (s ++ String.mk ['.', 'r', 'u', 'n', '_', d1, '_', 'o', 'f', '_', d2]).data
      = s.data ++ ['.', 'r', 'u', 'n', '_', d1, '_', 'o', 'f', '_', d2] := rfl
  rw [hdata, List.reverse_append]
  have hrev : (['.', 'r', 'u', 'n', '_', d1, '_', 'o', 'f', '_', d2] : List Char).reverse
      = [d2, '_', 'f', 'o', '_', d1, '_', 'n', 'u', 'r', '.'] := rfl
  rw [hrev]
  have hmatch : stripRunSuffixRev
      (d2 :: '_' :: 'f' :: 'o' :: '_' :: d1 :: '_' :: 'n' :: 'u' :: 'r' :: '.' :: s.data.reverse)
      = some s.data.reverse := by
    show (if d1.isDigit && d2.isDigit then some s.data.reverse else Option.none)
      = some s.data.reverse
    rw [h1, h2]
    rfl
  show (match stripRunSuffixRev
      (d2 :: '_' :: 'f' :: 'o' :: '_' :: d1 :: '_' :: 'n' :: 'u' :: 'r' :: '.' :: s.data.reverse) with
    | some rest => String.mk rest.reverse
    | Option.none =>
      s ++ String.mk ['.', 'r', 'u', 'n', '_', d1, '_', 'o', 'f', '_', d2]) = s
  rw [hmatch]
  show String.mk s.data.reverse.reverse = s
  rw [List.reverse_reverse]

theorem stripColumn_length : ∀ (vals stripped : List Value),
    stripColumn vals = Except.ok stripped → stripped.length = vals.length := by
  intro vals
  induction vals with
  | nil =>
    intro stripped h
    cases h
    rfl
  | cons v rest ih =>
    intro stripped h
    cases v with
    | str s =>
      rw [show stripColumn (Value.str s :: rest)
          = (match stripColumn rest with
             | Except.error e => Except.error e
             | Except.ok vs => Except.ok (Value.str (stripRunSuffix s) :: vs)) from rfl] at h
      cases hr : stripColumn rest with
      | error e =>
        rw [hr] at h
        exact Except.noConfusion h
      | ok vs =>
        rw [hr] at h
        cases h
        simp [ih vs hr]
    | int i => exact Except.noConfusion h
    | float m e => exact Except.noConfusion h
    | bool b => exact Except.noConfusion h
    | none => exact Except.noConfusion h
    | timestamp t => exact Except.noConfusion h
    | nan => exact Except.noConfusion h

theorem columnValues_length (df : DataFrame) (c : String) :
    (columnValues df c).length = df.rows.length := by
  simp [columnValues]

theorem assignColumn_rows_length (df : DataFrame) (c : String) (vals : List Value)
    (h : vals.length = df.rows.length) :
    (assignColumn df c vals).rows.length = df.rows.length := by
  simp [assignColumn, List.length_zip, h]

theorem selectColumns_rows_length (df : DataFrame) (cols : List String) (df2 : DataFrame)
    (h : selectColumns df cols = Except.ok df2) : df2.rows.length = df.rows.length := by
  unfold selectColumns at h
  split at h
  · cases h
    simp
  · exact Except.noConfusion h

theorem setIndex_rows (df : DataFrame) (cols : List String) (df2 : DataFrame)
    (h : setIndex df cols = Except.ok df2) : df2.rows = df.rows := by
  unfold setIndex at h
  split at h
  · cases h
    rfl
  · exact Except.noConfusion h

theorem pdDataFrame_rows_length (l : List (Dict String Value)) :
    (pdDataFrame l).rows.length = l.length := by
  simp [pdDataFrame]

theorem make_dataframe_rows_length (l : List (Dict String Value)) (cols : List String)
    (df : DataFrame) (h : make_dataframe l cols = Except.ok df) :
    df.rows.length = l.length := by
  unfold make_dataframe at h
  dsimp only at h
  split at h
  · cases h
    exact pdDataFrame_rows_length l
  · split at h
    · exact Except.noConfusion h
    · split at h
      · exact Except.noConfusion h
      · rename_i stripped hstrip
        split at h
        · exact Except.noConfusion h
        · rename_i df3 hsel
          have e0 := pdDataFrame_rows_length l
          have e1 := assignColumn_rows_length (pdDataFrame l) BENCHMARK_FULL_KEY
            (columnValues (pdDataFrame l) BENCHMARK_KEY)
            (columnValues_length (pdDataFrame l) BENCHMARK_KEY)
          have e2 : stripped.length
              = (assignColumn (pdDataFrame l) BENCHMARK_FULL_KEY
                  (columnValues (pdDataFrame l) BENCHMARK_KEY)).rows.length := by
            rw [stripColumn_length _ stripped hstrip]
            exact columnValues_length _ BENCHMARK_KEY
          have e3 := assignColumn_rows_length
            (assignColumn (pdDataFrame l) BENCHMARK_FULL_KEY
              (columnValues (pdDataFrame l) BENCHMARK_KEY))
            BENCHMARK_KEY stripped e2
          have e4 := selectColumns_rows_length _ _ df3 hsel
          have e5 := setIndex_rows df3 [STARTED_AT] df h
          rw [e5, e4, e3, e1, e0]

/-- C1, counterexample: the source regex `\.run_\d_of_\d$` matches exactly
one digit on each side, so the benchmark name `taskA.run_3_of_10` is left
unchanged — it does NOT become `taskA` as the claim states. -/
theorem claim1_counterexample :
    stripRunSuffix "taskA.run_3_of_10" = "taskA.run_3_of_10" ∧
    ¬ stripRunSuffix "taskA.run_3_of_10" = "taskA" := by
  refine ⟨rfl, ?_⟩
  intro h
  rw [show stripRunSuffix "taskA.run_3_of_10" = "taskA.run_3_of_10" from rfl] at h
  exact absurd h (by decide)

/-- C1, amended: the table builder strips a trailing suffix of the form
dot, `run_`, ONE digit, `_of_`, ONE digit, end of string; a name without
such a suffix is unchanged; only the trailing match is stripped; and a name
whose run count has two digits, such as `taskA.run_3_of_10`, is left
unchanged. -/
theorem claim1_strip :
    (∀ (s : String) (d1 d2 : Char), d1.isDigit = true → d2.isDigit = true →
      stripRunSuffix (s ++ String.mk ['.', 'r', 'u', 'n', '_', d1, '_', 'o', 'f', '_', d2]) = s) ∧
    stripRunSuffix "taskA" = "taskA" ∧
    stripRunSuffix "foo.run_2_of_5" = "foo" ∧
    stripRunSuffix "taskA.run_3_of_10" = "taskA.run_3_of_10" ∧
    stripRunSuffix "taskA.run_3_of_10.run_1_of_2" = "taskA.run_3_of_10" ∧
    stripRunSuffix "a.run_1_of_2.xyz" = "a.run_1_of_2.xyz" :=
  ⟨stripRunSuffix_append, rfl, rfl, rfl, rfl, rfl⟩

/-- C1, witness for the amended theorem at a concrete benchmark name. -/
theorem claim1_strip_witness :
    stripRunSuffix ("bench" ++ String.mk ['.', 'r', 'u', 'n', '_', '3', '_', 'o', 'f', '_', '7'])
      = "bench" :=
  claim1_strip.1 "bench" '3' '7' rfl rfl

/-- C2, counterexample: `name, val = hp.split('=')` splits at EVERY equals
sign, so the entry `a=b=c` raises a ValueError instead of yielding the name
`a` with the value `b=c` that the claim describes. -/
theorem claim2_counterexample :
    parse_hparam_entry "a=b=c" = Except.error "ValueError" ∧
    ¬ parse_hparam_entry "a=b=c" = Except.ok ("a", Value.str "b=c") := by
  refine ⟨rfl, ?_⟩
  intro h
  rw [show parse_hparam_entry "a=b=c" = Except.error "ValueError" from rfl] at h
  exact Except.noConfusion h

/-- C2, amended: the parser splits each entry at every `=`; an entry with
exactly one `=` yields the text before it as the name and the text after it
(coerced by the typed-value parser) as the value, while an entry whose
split does not have exactly two parts — no `=`, or two or more — raises a
ValueError; the number of split parts is one more than the number of `=`
characters. -/
theorem claim2_split :
    (∀ (n v : String), '=' ∉ n.data → '=' ∉ v.data →
      parse_hparam_entry (n ++ "=" ++ v) = Except.ok (n, to_pytype v)) ∧
    (∀ hp : String, (pySplit hp '=').length ≠ 2 →
      parse_hparam_entry hp = Except.error "ValueError") ∧
    (∀ hp : String, (pySplit hp '=').length = hp.data.count '=' + 1) := by
  refine ⟨?_, ?_, pySplit_length⟩
  · intro n v hn hv
    unfold parse_hparam_entry
    rw [pySplit_two_parts n v hn hv]
  · intro hp h
    cases hl : pySplit hp '=' with
    | nil =>
      unfold parse_hparam_entry
      rw [hl]
    | cons a t =>
      cases t with
      | nil =>
        unfold parse_hparam_entry
        rw [hl]
      | cons b t2 =>
        cases t2 with
        | nil => exact absurd (by simp [hl]) h
        | cons c t3 =>
          unfold parse_hparam_entry
          rw [hl]

/-- C2, witness for the amended theorem on a well-formed entry. -/
theorem claim2_split_witness :
    parse_hparam_entry ("batch_size" ++ "=" ++ "256")
      = Except.ok ("batch_size", to_pytype "256") :=
  claim2_split.1 "batch_size" "256" (by decide) (by decide)

/-- C3, counterexample: `_merge_results` is not pure — after merging, the
first argument's property map has been mutated in place (here it gained the
leaf property `b` under key `k`), so the first input is NOT left
unmodified. -/
theorem claim3_counterexample :
    ¬ merge_results_post1 ⟨[("k", [("a", Value.int 1)])], ["a"]⟩
        ⟨[("k", [("b", Value.int 2)])], ["b"]⟩
      = ⟨[("k", [("a", Value.int 1)])], ["a"]⟩ := by
  decide

/-- C3, amended: `_merge_results` aliases and mutates the first result's
property map in place: after the call the first input's property map equals
the merged map (in particular it now contains every key of either input),
while the second input and both inputs' name lists are left unmodified. -/
theorem claim3_mutation (r1 r2 : _Result) :
    merge_results_post2 r1 r2 = r2 ∧
    (merge_results_post1 r1 r2).property_names = r1.property_names ∧
    (merge_results_post1 r1 r2).properties = (merge_results r1 r2).properties ∧
    (∀ k, dcontains r1.properties k = true →
      dcontains (merge_results_post1 r1 r2).properties k = true) ∧
    (∀ k, dcontains r2.properties k = true →
      dcontains (merge_results_post1 r1 r2).properties k = true) := by
  refine ⟨rfl, rfl, rfl, ?_, ?_⟩
  · intro k h
    exact dcontains_foldl_merge_left r2.properties r1.properties k h
  · intro k h
    exact dcontains_foldl_merge_right r2.properties r1.properties k h

/-- C3, witness for the amended theorem at concrete inputs. -/
theorem claim3_mutation_witness :
    dcontains (merge_results_post1 ⟨[("k1", [])], []⟩ ⟨[("k2", [])], []⟩).properties "k2"
      = true :=
  (claim3_mutation ⟨[("k1", [])], []⟩ ⟨[("k2", [])], []⟩).2.2.2.2 "k2" (by decide)

/-- C4: merging A with keys k1, k2 and B with keys k2, k3 yields keys k1,
k2, k3; the map stored under the shared key k2 is A's map updated with B's
(B winning on leaf-property collisions, by the lookup law proved for
`dupdate`); and the combined name list is the plain concatenation of the
two name lists, without deduplication. -/
theorem claim4_merge (k1 k2 k3 : String) (a1 a2 b2 b3 : Dict String Value)
    (names1 names2 : List String) (h12 : k1 ≠ k2) (h13 : k1 ≠ k3) (h23 : k2 ≠ k3)
    (hb2 : (dkeys b2).Nodup) :
    dkeys (merge_results ⟨[(k1, a1), (k2, a2)], names1⟩
        ⟨[(k2, b2), (k3, b3)], names2⟩).properties = [k1, k2, k3] ∧
    dlookup (merge_results ⟨[(k1, a1), (k2, a2)], names1⟩
        ⟨[(k2, b2), (k3, b3)], names2⟩).properties k2 = some (dupdate a2 b2) ∧
    (∀ p, dlookup (dupdate a2 b2) p = (dlookup b2 p).or (dlookup a2 p)) ∧
    (merge_results ⟨[(k1, a1), (k2, a2)], names1⟩
        ⟨[(k2, b2), (k3, b3)], names2⟩).property_names = names1 ++ names2 := by
  have hl1 : dlookup [(k1, a1), (k2, a2)] k2 = some a2 := by
    simp [dlookup, h12]
  have e1 : merge_step [(k1, a1), (k2, a2)] (k2, b2) = [(k1, a1), (k2, dupdate a2 b2)] := by
    show (match dlookup [(k1, a1), (k2, a2)] k2 with
      | some existing => dinsert [(k1, a1), (k2, a2)] k2 (dupdate existing b2)
      | Option.none => dinsert [(k1, a1), (k2, a2)] k2 b2) = _
    rw [hl1]
    show dinsert [(k1, a1), (k2, a2)] k2 (dupdate a2 b2) = _
    unfold dinsert
    rw [if_pos (show dcontains [(k1, a1), (k2, a2)] k2 = true by
      simp [dcontains, dlookup, h12])]
    simp [h12]
  have hl2 : dlookup [(k1, a1), (k2, dupdate a2 b2)] k3 = Option.none := by
    simp [dlookup, h13, h23]
  have e2 : merge_step [(k1, a1), (k2, dupdate a2 b2)] (k3, b3)
      = [(k1, a1), (k2, dupdate a2 b2), (k3, b3)] := by
    show (match dlookup [(k1, a1), (k2, dupdate a2 b2)] k3 with
      | some existing => dinsert [(k1, a1), (k2, dupdate a2 b2)] k3 (dupdate existing b3)
      | Option.none => dinsert [(k1, a1), (k2, dupdate a2 b2)] k3 b3) = _
    rw [hl2]
    show dinsert [(k1, a1), (k2, dupdate a2 b2)] k3 b3 = _
    unfold dinsert
    rw [if_neg (show ¬ dcontains [(k1, a1), (k2, dupdate a2 b2)] k3 = true by
      simp [dcontains, dlookup, h13, h23])]
    rfl
  have hm : (merge_results ⟨[(k1, a1), (k2, a2)], names1⟩
      ⟨[(k2, b2), (k3, b3)], names2⟩).properties
      = [(k1, a1), (k2, dupdate a2 b2), (k3, b3)] := by
    show List.foldl merge_step [(k1, a1), (k2, a2)] [(k2, b2), (k3, b3)] = _
    rw [List.foldl_cons, e1, List.foldl_cons, e2]
    rfl
  refine ⟨?_, ?_, ?_, rfl⟩
  · rw [hm]
    rfl
  · rw [hm]
    simp [dlookup, h12]
  · intro p
    rw [dlookup_dupdate a2 b2 p hb2]
    cases dlookup b2 p <;> rfl

/-- C4, witness at concrete keys and maps. -/
theorem claim4_merge_witness :
    dlookup (merge_results
        ⟨[("k1", [("h", Value.int 1)]), ("k2", [("x", Value.int 2)])], ["h", "x"]⟩
        ⟨[("k2", [("m", Value.int 3)]), ("k3", [("m2", Value.int 4)])], ["m", "m2"]⟩).properties
      "k2" = some (dupdate [("x", Value.int 2)] [("m", Value.int 3)]) :=
  (claim4_merge "k1" "k2" "k3" [("h", Value.int 1)] [("x", Value.int 2)]
    [("m", Value.int 3)] [("m2", Value.int 4)] ["h", "x"] ["m", "m2"]
    (by decide) (by decide) (by decide) (by decide)).2.1

/-- C5: on a store with no qualifying entries, `overview` returns the empty
frame when no aggregators are supplied but RAISES a KeyError when a
non-empty aggregator list is supplied, because `_aggregate_results` groups
the empty, column-less frame by the contextual column names — contradicting
the function's own docstring, which promises an empty frame when no
evaluations and hparams are found. -/
theorem claim5_empty_overview :
    overview storeNoQualifying Option.none = Except.ok ⟨[], [], []⟩ ∧
    overview storeNoQualifying (some [aggMean]) = Except.error "KeyError" :=
  ⟨rfl, rfl⟩

/-- C6: the typed-value coercion is a total function — the structured
literals parse to typed values (`true` to a boolean, `123` to an integer,
`1.5` to a float, `null` to None), and every string whose lowercased form
fails structured parsing is returned unchanged as a literal string. -/
theorem claim6_to_pytype :
    to_pytype "true" = Value.bool true ∧
    to_pytype "123" = Value.int 123 ∧
    to_pytype "1.5" = Value.float 15 (-1) ∧
    to_pytype "null" = Value.none ∧
    (∀ s : String, jsonLoads (pyLower s) = Option.none → to_pytype s = Value.str s) := by
  refine ⟨rfl, rfl, rfl, rfl, ?_⟩
  intro s h
  unfold to_pytype
  rw [h]

/-- C6, witness for the fallback clause on a non-structured string. -/
theorem claim6_to_pytype_witness :
    to_pytype "hello world" = Value.str "hello world" :=
  claim6_to_pytype.2.2.2.2 "hello world" rfl

/-- C7: in both extractors, when the run id string does not parse as an
integer, the entry that the loop body produces stores the literal run id
string as its start-time value (no exception escapes: the `int` failure is
caught and the fallback assignment runs). -/
theorem claim7_started_at :
    (∀ (ex : Execution) (key : String) (m : Dict String Value) (ns : List String)
        (pv : ExecPropVal),
      exec_entry ex = Except.ok (key, m, ns) →
      dlookup ex.properties RUN_ID_KEY = some pv →
      pyInt pv.string_value = Option.none →
      dlookup m STARTED_AT = some (Value.str pv.string_value)) ∧
    (∀ (rmap : Dict Int String) (aid : Int) (evals : Dict String Value) (key : String)
        (m : Dict String Value) (rid : String),
      benchmark_entry rmap (aid, evals) = Except.ok (key, m) →
      dlookup rmap aid = some rid →
      pyInt rid = Option.none →
      dlookup m STARTED_AT = some (Value.str rid)) := by
  constructor
  · intro ex key m ns pv hok hrid hint
    unfold exec_entry at hok
    rw [hrid] at hok
    dsimp only at hok
    cases hhp : dlookup ex.properties _HPARAMS with
    | none =>
      rw [hhp] at hok
      exact Except.noConfusion hok
    | some hpProp =>
      rw [hhp] at hok
      dsimp only at hok
      cases hph : parse_hparams hpProp.string_value with
      | error e =>
        rw [hph] at hok
        exact Except.noConfusion hok
      | ok hparams0 =>
        rw [hph] at hok
        dsimp only at hok
        cases htid : dlookup ex.properties _TRAINER_ID with
        | none =>
          rw [htid] at hok
          exact Except.noConfusion hok
        | some tidProp =>
          rw [htid] at hok
          dsimp only at hok
          cases hok
          rw [dlookup_dinsert_self]
          unfold startedAtValue
          rw [hint]
  · intro rmap aid evals key m rid hok hmap hint
    unfold benchmark_entry at hok
    dsimp only at hok
    rw [hmap] at hok
    dsimp only at hok
    cases hb : dlookup
        (dinsert (dinsert evals RUN_ID_KEY (Value.str rid)) STARTED_AT (startedAtValue rid))
        BENCHMARK_KEY with
    | none =>
      rw [hb] at hok
      exact Except.noConfusion hok
    | some v =>
      rw [hb] at hok
      cases v with
      | str bench =>
        dsimp only at hok
        cases hok
        rw [dlookup_dinsert_self]
        unfold startedAtValue
        rw [hint]
      | int i => exact Except.noConfusion hok
      | float mant ex10 => exact Except.noConfusion hok
      | bool b => exact Except.noConfusion hok
      | none => exact Except.noConfusion hok
      | timestamp t => exact Except.noConfusion hok
      | nan => exact Except.noConfusion hok

/-- C7, witness: both extractor loop bodies applied to concrete inputs with
the non-numeric run ids `abc` and `xyz`. -/
theorem claim7_started_at_witness :
    dlookup [("a", Value.int 1), ("run_id", Value.str "abc"), ("benchmark", Value.str "taskA"),
        ("started_at", Value.str "abc")] STARTED_AT = some (Value.str "abc") ∧
    dlookup [("benchmark", Value.str "taskB"), ("run_id", Value.str "xyz"),
        ("started_at", Value.str "xyz")] STARTED_AT = some (Value.str "xyz") :=
  ⟨claim7_started_at.1 execNonNumericRunId "abc.taskA"
      [("a", Value.int 1), ("run_id", Value.str "abc"), ("benchmark", Value.str "taskA"),
       ("started_at", Value.str "abc")] ["a"] ⟨"abc"⟩ rfl rfl rfl,
   claim7_started_at.2 [(1, "xyz")] 1 [("benchmark", Value.str "taskB")] "xyz.taskB"
      [("benchmark", Value.str "taskB"), ("run_id", Value.str "xyz"),
       ("started_at", Value.str "xyz")] "xyz" rfl rfl rfl⟩

/-- C8: the benchmark-result extractor assigns each keyed entry into its
properties dict in iteration order, so its keys are duplicate-free (exactly
one stored entry per composite key) and the stored value for a key is the
LAST entry yielding that key — earlier colliding entries are silently
overwritten. -/
theorem claim8_overwrite (store : MetadataStore) (entries : List (String × Dict String Value))
    (r : _Result) (he : benchmark_entries store = Except.ok entries)
    (hr : get_benchmark_results store = Except.ok r) :
    (dkeys r.properties).Nodup ∧ ∀ k, dlookup r.properties k = lookupLast entries k := by
  unfold get_benchmark_results at hr
  dsimp only at hr
  rw [he] at hr
  dsimp only at hr
  cases hr
  refine ⟨nodup_foldl_dinsert entries [] (by simp [dkeys]), ?_⟩
  intro k
  rw [dlookup_foldl_dinsert]
  cases hl : lookupLast entries k with
  | some v => simp [hl]
  | none => simp [hl, dlookup]

/-- C8, witness: the collision store yields two entries with the composite
key `7.taskA`, and the stored table has exactly one row for it, the later
artifact's. -/
theorem claim8_overwrite_witness :
    (dkeys collisionResult.properties).Nodup ∧
    dlookup collisionResult.properties "7.taskA" = lookupLast collisionEntries "7.taskA" := by
  have h := claim8_overwrite storeCollision collisionEntries collisionResult rfl rfl
  exact ⟨h.1, h.2 "7.taskA"⟩

/-- C9: the default contextual column tuple has five entries; a merged
entry is kept for the table exactly when its property map has strictly more
than that many entries; the table has one row per kept entry; and on a
store whose single entry has two genuine hparams the entry carries exactly
five properties (three contextual ones plus the two hparams) and is
silently dropped. -/
theorem claim9_filter :
    _DEFAULT_COLUMNS.length = 5 ∧
    (∀ (result : _Result) (r : Dict String Value),
      r ∈ overview_results_list result ↔
        r ∈ dvalues result.properties ∧ _DEFAULT_COLUMNS.length < dsize r) ∧
    (∀ (l : List (Dict String Value)) (cols : List String) (df : DataFrame),
      make_dataframe l cols = Except.ok df → df.rows.length = l.length) ∧
    (dvalues mergedTwoHparams.properties).map dsize = [5] ∧
    overview_results_list mergedTwoHparams = [] := by
  refine ⟨rfl, ?_, make_dataframe_rows_length, rfl, rfl⟩
  intro result r
  simp [overview_results_list, List.mem_filter]

/-- C9, witness: a six-entry property map passes the filter. -/
theorem claim9_filter_witness :
    sixKeyEntry ∈ overview_results_list ⟨[("kk", sixKeyEntry)], []⟩ :=
  (claim9_filter.2.1 ⟨[("kk", sixKeyEntry)], []⟩ sixKeyEntry).mpr
    ⟨by simp [dvalues], by decide⟩

/-- C10: the coercion lowercases before parsing, so a JSON-quoted string
literal comes back lowercased (`"ABC"` with quotes yields `abc`), while a
string that fails structured parsing is returned with its original casing
preserved. -/
theorem claim10_lowercase :
    to_pytype "\"ABC\"" = Value.str "abc" ∧
    to_pytype "AbC" = Value.str "AbC" ∧
    (∀ s : String, jsonLoads (pyLower s) = Option.none → to_pytype s = Value.str s) := by
  refine ⟨rfl, rfl, ?_⟩
  intro s h
  unfold to_pytype
  rw [h]

/-- C10, witness for the original-casing fallback clause. -/
theorem claim10_lowercase_witness :
    to_pytype "MiXeD CaSe" = Value.str "MiXeD CaSe" :=
  claim10_lowercase.2.2 "MiXeD CaSe" rfl
